import Mathlib

/-!
# Verifiable Intelligence Engine — anomaly-detection core, shallow embedding

This file embeds the core logic of `app.py` (model lifecycle manager,
verifiability scorer, model store) together with the isolation-forest
engine.  The Python source delegates the forest algorithm to an external
estimator; the specification describes the intended algorithm directly
(`Build`, `PathLength`, `RawScore`, threshold derivation, `Predict`), so
those parts are modelled from the spec, with the pseudo-random source —
which the spec leaves abstract behind a `seed` — realised by an explicit
linear-congruential generator.  Feature values are rationals; the
path-length correction `c(n)` and the anomaly score `2^(-avg/c(ψ))` are
real-valued, as the spec's formulas require.
-/

open Real

namespace VIE

/-- A sample is an ordered sequence of feature values. -/
abbrev Sample := List ℚ

/-- A dataset is an ordered sequence of samples. -/
abbrev Dataset := List Sample

/-- Modelled from the spec: the spec's `Build` draws features, split values
and subsamples "uniformly at random" from a seeded source it never pins
down; we realise that source as a 31-bit linear-congruential generator. -/
structure Rng where
  state : ℕ
deriving DecidableEq, Repr

/-- The generator seeded as the lifecycle manager seeds it. -/
def rngOfSeed (seed : ℕ) : Rng := ⟨seed % 2147483648⟩

/-- One LCG step: returns the fresh 31-bit state and the advanced generator. -/
def nextRng (g : Rng) : ℕ × Rng :=
  let s := (g.state * 1103515245 + 12345) % 2147483648
  (s, ⟨s⟩)

/-- A pseudo-random natural number below `n` (returns `0` when `n = 0`). -/
def randNat (g : Rng) (n : ℕ) : ℕ × Rng :=
  let (v, g') := nextRng g
  (v % n, g')

/-- A pseudo-random rational in `[0,1)`. -/
def randUnit (g : Rng) : ℚ × Rng :=
  let (v, g') := nextRng g
  ((v : ℚ) / 2147483648, g')

/-- An isolation tree: internal nodes carry a feature index and a split
threshold; leaves carry the residual training-point count and the depth at
which the branch terminated. -/
inductive ITree where
  | leaf (count : ℕ) (depth : ℕ)
  | node (feat : ℕ) (split : ℚ) (left : ITree) (right : ITree)
deriving DecidableEq, Repr

/-- Minimum of a feature over the points routed to a node. -/
def featMin (pts : Dataset) (f : ℕ) : ℚ :=
  match pts with
  | [] => 0
  | p :: ps => ps.foldl (fun m q => min m (q.getD f 0)) (p.getD f 0)

/-- Maximum of a feature over the points routed to a node. -/
def featMax (pts : Dataset) (f : ℕ) : ℚ :=
  match pts with
  | [] => 0
  | p :: ps => ps.foldl (fun m q => max m (q.getD f 0)) (p.getD f 0)

/-- Modelled from the spec: grow one isolation tree.  At each node pick a
feature uniformly at random, pick a split value uniformly at random within
that feature's observed `[min,max]`, partition the points by comparison and
recurse; stop when the node holds at most one point or the depth limit is
reached (`fuel` is the remaining depth budget). -/
def growTree (dim : ℕ) (pts : Dataset) (depth : ℕ) (fuel : ℕ) (g : Rng) :
    ITree × Rng :=
  match fuel with
  | 0 => (.leaf pts.length depth, g)
  | fuel' + 1 =>
    if pts.length ≤ 1 then (.leaf pts.length depth, g)
    else
      let (f, g1) := randNat g dim
      let lo := featMin pts f
      let hi := featMax pts f
      let (r, g2) := randUnit g1
      let split := lo + r * (hi - lo)
      let lpts := pts.filter (fun p => p.getD f 0 < split)
      let rpts := pts.filter (fun p => ¬ p.getD f 0 < split)
      let (tl, g3) := growTree dim lpts (depth + 1) fuel' g2
      let (tr, g4) := growTree dim rpts (depth + 1) fuel' g3
      (.node f split tl tr, g4)

/-- Draw `k` points with replacement (used when the dataset is smaller than
the subsample size). -/
def sampleWith (d : Dataset) (k : ℕ) (g : Rng) : Dataset × Rng :=
  match k with
  | 0 => ([], g)
  | k' + 1 =>
    let (i, g1) := randNat g d.length
    let (rest, g2) := sampleWith d k' g1
    (d.getD i [] :: rest, g2)

/-- Draw `k` points without replacement (used when the dataset is at least
as large as the subsample size). -/
def sampleWithout (d : Dataset) (k : ℕ) (g : Rng) : Dataset × Rng :=
  match k with
  | 0 => ([], g)
  | k' + 1 =>
    let (i, g1) := randNat g d.length
    let (rest, g2) := sampleWithout (d.eraseIdx i) k' g1
    (d.getD i [] :: rest, g2)

/-- Modelled from the spec: one bootstrap subsample of size `k` — with
replacement if the dataset is smaller than `k`, without replacement
otherwise. -/
def drawSubsample (d : Dataset) (k : ℕ) (g : Rng) : Dataset × Rng :=
  if d.length < k then sampleWith d k g else sampleWithout d k g

/-- Depth limit `⌈log₂ ψ⌉` for trees grown from subsamples of size `ψ`:
the least `k` with `ψ ≤ 2 ^ k` (see `depthLimit_eq_clog` below). -/
def depthLimit (ψ : ℕ) : ℕ :=
  ((List.range (ψ + 1)).find? (fun k => ψ ≤ 2 ^ k)).getD 0

/-- Modelled from the spec: `Build` grows `numTrees` trees, one per
independently drawn subsample, threading the pseudo-random state. -/
def buildTrees (d : Dataset) (numTrees ψ : ℕ) (g : Rng) :
    List ITree × Rng :=
  match numTrees with
  | 0 => ([], g)
  | t + 1 =>
    let dim := (d.headD []).length
    let (sub, g1) := drawSubsample d ψ g
    let (tree, g2) := growTree dim sub 0 (depthLimit ψ) g1
    let (rest, g3) := buildTrees d t ψ g2
    (tree :: rest, g3)

/-- Walk a sample from the root to a leaf, following each node's
feature/threshold comparison; return the leaf's depth and point count. -/
def pathDepthCount (t : ITree) (s : Sample) : ℕ × ℕ :=
  match t with
  | .leaf cnt dp => (dp, cnt)
  | .node f sp l r =>
    if s.getD f 0 < sp then pathDepthCount l s else pathDepthCount r s

/-- Per-sample walk statistics over an ensemble: the sum of leaf depths
and the number of leaves reached whose point count is 2, 3, 4 and above 4.
Leaves with count 0 or 1 contribute no `c`-correction. -/
def statsOf : List ITree → Sample → ℕ × ℕ × ℕ × ℕ × ℕ
  | [], _ => (0, 0, 0, 0, 0)
  | t :: ts, s =>
    let rest := statsOf ts s
    let w := pathDepthCount t s
    (rest.1 + w.1,
     rest.2.1 + if w.2 = 2 then 1 else 0,
     rest.2.2.1 + if w.2 = 3 then 1 else 0,
     rest.2.2.2.1 + if w.2 = 4 then 1 else 0,
     rest.2.2.2.2 + if w.2 ≤ 4 then 0 else 1)

/-- The expected path length `c(n)` of an unbuilt random binary tree over
`n` points, with the spec's constant `0.5772156649`: `c(n) =
2·(ln(n-1) + 0.5772156649) - 2·(n-1)/n` for `n > 1`, and `c(n) = 0`
otherwise. -/
noncomputable def cFactor (n : ℕ) : ℝ :=
  if n ≤ 1 then 0
  else 2 * (Real.log ((n : ℝ) - 1) + 0.5772156649) - 2 * ((n : ℝ) - 1) / n

/-- Path length (`PathLength`) of a sample in one tree: leaf depth plus `c(leaf count)`. -/
noncomputable def pathLength (t : ITree) (s : Sample) : ℝ :=
  ((pathDepthCount t s).1 : ℝ) + cFactor (pathDepthCount t s).2

/-- Mean path length of a sample over all trees of a forest. -/
noncomputable def avgPathLength (trees : List ITree) (s : Sample) : ℝ :=
  ((trees.map (fun t => pathLength t s)).sum) / trees.length

/-- Raw anomaly score `RawScore(forest, sample) = 2^(-avgPathLength / c(ψ))`: near 1 means
strongly anomalous, near 0 strongly normal. -/
noncomputable def rawScore (trees : List ITree) (ψ : ℕ) (s : Sample) : ℝ :=
  (2 : ℝ) ^ (-(avgPathLength trees s) / cFactor ψ)

open scoped Classical in
/-- Threshold derivation, done once at `Build` time: the raw score of every
training point, sorted ascending by normality (i.e. descending raw score),
taken at index `⌊contamination · N⌋` — the boundary of the most-anomalous
`contamination` fraction.  The spec leaves the exact boundary direction to
be fixed against its worked example; `predict` below marks a sample
anomalous when its raw score is strictly above this boundary value. -/
noncomputable def thresholdOf (trees : List ITree) (ψ : ℕ) (d : Dataset)
    (contamination : ℚ) : ℝ :=
  ((d.map (rawScore trees ψ)).insertionSort (· ≥ ·)).getD
    (Nat.floor (contamination * d.length)) 0

/-- An immutable isolation forest: the tree ensemble, its configuration and
the derived labeling threshold. -/
structure Forest where
  trees : List ITree
  subsampleSize : ℕ
  contamination : ℚ
  seed : ℕ
  threshold : ℝ

/-- Forest construction `Build(dataset, numTrees, subsampleSize, seed)`: grow the ensemble and
derive the labeling threshold from the training points' raw scores. -/
noncomputable def buildForest (d : Dataset) (numTrees ψ seed : ℕ)
    (contamination : ℚ) : Forest :=
  let trees := (buildTrees d numTrees ψ (rngOfSeed seed)).1
  { trees := trees
    subsampleSize := ψ
    contamination := contamination
    seed := seed
    threshold := thresholdOf trees ψ d contamination }

open scoped Classical in
/-- Labeling `Predict(forest, sample)`: `-1` (anomaly) when the raw score lies in the
most-anomalous fraction cut out by the threshold, else `1` (normal). -/
noncomputable def predict (f : Forest) (s : Sample) : ℤ :=
  if f.threshold < rawScore f.trees f.subsampleSize s then -1 else 1

/-! ## Verifiability scorer (`detect_anomalies_endpoint`, score branch) -/

/-- Minimum of a non-empty batch of scores (`scores.min()`). -/
def batchMin (l : List ℝ) : ℝ :=
  match l with
  | [] => 0
  | x :: xs => xs.foldl min x

/-- Maximum of a non-empty batch of scores (`scores.max()`). -/
def batchMax (l : List ℝ) : ℝ :=
  match l with
  | [] => 0
  | x :: xs => xs.foldl max x

open scoped Classical in
/-- Scorer `Score(batch)`: `1.0` when `max(batch) == min(batch)`, else the mean of
the min-max-normalized scores. -/
noncomputable def vScore (l : List ℝ) : ℝ :=
  let mn := batchMin l
  let mx := batchMax l
  if mx = mn then 1
  else ((l.map (fun x => (x - mn) / (mx - mn))).sum) / l.length

/-! ## Model store and lifecycle manager -/

/-- The model store: identifier-keyed persisted forests, newest record
first (a later `Save` for the same identifier overwrites at lookup). -/
abbrev Store := List (String × Forest)

/-- Lookup (`Load`/`Exists`): the record stored under an identifier, if any. -/
def lookupModel (st : Store) (id : String) : Option Forest :=
  (st.find? (fun e => e.1 = id)).map (fun e => e.2)

/-- Persistence (`Save`): persist a forest under an identifier, overwriting any prior
record for it. -/
def saveModel (st : Store) (id : String) (f : Forest) : Store :=
  (id, f) :: st

/-- Synchronous training `_train_model_sync`: build a forest with the fixed defaults — 100
trees, subsample size `min 256 N`, seed 42 (`random_state=42`). -/
noncomputable def trainModelSync (d : Dataset) (contamination : ℚ) : Forest :=
  buildForest d 100 (min 256 d.length) 42 contamination

/-- Lifecycle manager `get_or_train_model`: if a record exists for the identifier, load and
return it unconditionally (this call's dataset and contamination are
ignored); otherwise train, save and return the new forest. -/
noncomputable def getOrTrain (st : Store) (id : String) (d : Dataset)
    (contamination : ℚ) : Forest × Store :=
  match lookupModel st id with
  | some f => (f, st)
  | none =>
    let f := trainModelSync d contamination
    (f, saveModel st id f)

/-! ## Endpoints -/

/-- Rectangularity: every row has the head row's length. -/
def isRect (d : Dataset) : Bool :=
  d.all (fun r => r.length = (d.headD []).length)

/-- Modelled from the spec: the dimensionality check `data_np.ndim != 2`
relies on the external array library, which builds a 2-D array exactly from
a rectangular list of lists and a non-2-D object otherwise. -/
def ndim (d : Dataset) : ℕ :=
  if isRect d then 2 else 1

/-- Result payload of `train_model_endpoint`. -/
structure TrainingResult where
  model_id : String
  status : String
  message : String
deriving DecidableEq, Repr

/-- Result payload of `detect_anomalies_endpoint` (the elapsed-time field
is owned by the serving collaborator and omitted). -/
structure AnomalyDetectionOutput where
  model_id : String
  anomalies : List ℤ
  empirical_verifiability_score : ℝ

/-- Result payload of `get_model_status_endpoint`. -/
structure ModelStatus where
  model_id : String
  is_trained : Bool
  data_shape : Option ℕ
deriving DecidableEq, Repr

/-- Endpoint `train_model_endpoint`: validate, then `get_or_train_model`, and
report `"Model trained and saved."` on success. -/
noncomputable def trainModelEndpoint (st : Store) (id : String) (d : Dataset)
    (contamination : ℚ) : Except String TrainingResult × Store :=
  if d.isEmpty then (.error "Training data cannot be empty.", st)
  else if ndim d ≠ 2 then
    (.error "Training data must be a list of lists (2D array).", st)
  else
    let (_, st') := getOrTrain st id d contamination
    (.ok ⟨id, "Success", "Model trained and saved."⟩, st')

/-- Endpoint `detect_anomalies_endpoint`: validate, `get_or_train_model`, label each
sample, and aggregate the per-sample scores into the verifiability value. -/
noncomputable def detectAnomalies (st : Store) (id : String) (d : Dataset)
    (contamination : ℚ) : Except String AnomalyDetectionOutput × Store :=
  if d.isEmpty then (.error "Input data cannot be empty.", st)
  else if ndim d ≠ 2 then
    (.error "Input data must be a list of lists (2D array).", st)
  else
    let (model, st') := getOrTrain st id d contamination
    let preds := d.map (predict model)
    let scores := d.map (rawScore model.trees model.subsampleSize)
    (.ok ⟨id, preds, vScore scores⟩, st')

/-- Endpoint `get_model_status_endpoint`: report whether a trained record exists for
the identifier; purely a read of the store. -/
def getModelStatus (st : Store) (id : String) : ModelStatus × Store :=
  (⟨id, (lookupModel st id).isSome, none⟩, st)

/-! ## Helper lemmas -/

/-- A forest value used to populate concrete stores in witnesses. -/
noncomputable def trivialForest : Forest :=
  { trees := [], subsampleSize := 0, contamination := 0, seed := 0,
    threshold := 0 }

lemma foldl_min_le_init (xs : List ℝ) (a : ℝ) : xs.foldl min a ≤ a := by
  induction xs generalizing a with
  | nil => simp
  | cons x xs ih =>
    simpa using le_trans (ih (min a x)) (min_le_left a x)

lemma foldl_min_le_mem (xs : List ℝ) (a x : ℝ) (hx : x ∈ xs) :
    xs.foldl min a ≤ x := by
  induction xs generalizing a with
  | nil => cases hx
  | cons y ys ih =>
    simp only [List.foldl_cons]
    rcases List.mem_cons.mp hx with rfl | h
    · exact le_trans (foldl_min_le_init ys (min a x)) (min_le_right a x)
    · exact ih _ h

lemma le_foldl_max_init (xs : List ℝ) (a : ℝ) : a ≤ xs.foldl max a := by
  induction xs generalizing a with
  | nil => simp
  | cons x xs ih =>
    simpa using le_trans (le_max_left a x) (ih (max a x))

lemma mem_le_foldl_max (xs : List ℝ) (a x : ℝ) (hx : x ∈ xs) :
    x ≤ xs.foldl max a := by
  induction xs generalizing a with
  | nil => cases hx
  | cons y ys ih =>
    simp only [List.foldl_cons]
    rcases List.mem_cons.mp hx with rfl | h
    · exact le_trans (le_max_right a x) (le_foldl_max_init ys (max a x))
    · exact ih _ h

lemma batchMin_le_mem (l : List ℝ) (x : ℝ) (hx : x ∈ l) : batchMin l ≤ x := by
  cases l with
  | nil => cases hx
  | cons y ys =>
    rcases List.mem_cons.mp hx with h | h
    · exact h ▸ foldl_min_le_init ys y
    · exact foldl_min_le_mem ys y x h

lemma mem_le_batchMax (l : List ℝ) (x : ℝ) (hx : x ∈ l) : x ≤ batchMax l := by
  cases l with
  | nil => cases hx
  | cons y ys =>
    rcases List.mem_cons.mp hx with h | h
    · exact h ▸ le_foldl_max_init ys y
    · exact mem_le_foldl_max ys y x h

/-! ## Claims about the scorer -/

/-- C2: for every batch of raw anomaly scores in which the maximum equals
the minimum (including every single-sample batch), the verifiability
scorer returns exactly `1.0`. -/
theorem c2_scorer_degenerate_batch (l : List ℝ)
    (h : batchMax l = batchMin l) : vScore l = 1 := by
  simp [vScore, h]

theorem c2_witness :
    batchMax [(5 : ℝ)] = batchMin [(5 : ℝ)] ∧ vScore [(5 : ℝ)] = 1 :=
  ⟨rfl, c2_scorer_degenerate_batch [(5 : ℝ)] rfl⟩

/-- C3: for every non-degenerate batch (maximum strictly greater than
minimum), the scorer's result — the mean of the min-max-normalized
scores — lies in `[0,1]`. -/
theorem c3_scorer_range (l : List ℝ) (h : batchMin l < batchMax l) :
    0 ≤ vScore l ∧ vScore l ≤ 1 := by
  have hsub : 0 < batchMax l - batchMin l := sub_pos.mpr h
  have hmem : ∀ y ∈ l.map (fun x =>
      (x - batchMin l) / (batchMax l - batchMin l)), 0 ≤ y ∧ y ≤ 1 := by
    intro y hy
    rcases List.mem_map.mp hy with ⟨x, hx, rfl⟩
    constructor
    · exact div_nonneg (sub_nonneg.mpr (batchMin_le_mem l x hx)) hsub.le
    · exact div_le_one_of_le₀
        (sub_le_sub_right (mem_le_batchMax l x hx) _) hsub.le
  have hsum0 : 0 ≤ (l.map (fun x =>
      (x - batchMin l) / (batchMax l - batchMin l))).sum :=
    List.sum_nonneg fun y hy => (hmem y hy).1
  have hsum1 : (l.map (fun x =>
      (x - batchMin l) / (batchMax l - batchMin l))).sum ≤ l.length := by
    have := List.sum_le_card_nsmul
      (l.map (fun x => (x - batchMin l) / (batchMax l - batchMin l))) 1
      (fun y hy => (hmem y hy).2)
    simpa [nsmul_eq_mul] using this
  rw [vScore]
  simp only [if_neg (ne_of_gt h)]
  refine ⟨div_nonneg hsum0 (Nat.cast_nonneg _), ?_⟩
  exact div_le_one_of_le₀ hsum1 (Nat.cast_nonneg _)

theorem c3_witness :
    batchMin [(0 : ℝ), 1] < batchMax [(0 : ℝ), 1] ∧
      (0 ≤ vScore [(0 : ℝ), 1] ∧ vScore [(0 : ℝ), 1] ≤ 1) :=
  ⟨by norm_num [batchMin, batchMax],
   c3_scorer_range [(0 : ℝ), 1] (by norm_num [batchMin, batchMax])⟩

/-! ## Claims about the lifecycle manager, store and endpoints -/

/-- C1: cache-wins idempotence — when a record already exists for an
identifier, two `GetOrTrain` calls with arbitrary datasets and
contamination values return the same forest (hence identical `Predict`
outputs on any probe) and leave the store untouched; the second call's
parameters are ignored. -/
theorem c1_get_or_train_cache_wins (st : Store) (id : String) (f : Forest)
    (h : lookupModel st id = some f) (d₁ d₂ : Dataset) (c₁ c₂ : ℚ) :
    (getOrTrain st id d₁ c₁).1 = (getOrTrain st id d₂ c₂).1 ∧
    (∀ probe : Sample,
      predict (getOrTrain st id d₁ c₁).1 probe =
        predict (getOrTrain st id d₂ c₂).1 probe) ∧
    (getOrTrain st id d₁ c₁).2 = st ∧ (getOrTrain st id d₂ c₂).2 = st := by
  simp [getOrTrain, h]

theorem c1_witness :
    lookupModel [("m", trivialForest)] "m" = some trivialForest ∧
    ((getOrTrain [("m", trivialForest)] "m" [[1]] 0).1 =
      (getOrTrain [("m", trivialForest)] "m" [[2, 3]] (1/2)).1 ∧
    (∀ probe : Sample,
      predict (getOrTrain [("m", trivialForest)] "m" [[1]] 0).1 probe =
        predict (getOrTrain [("m", trivialForest)] "m" [[2, 3]] (1/2)).1
          probe) ∧
    (getOrTrain [("m", trivialForest)] "m" [[1]] 0).2 =
      [("m", trivialForest)] ∧
    (getOrTrain [("m", trivialForest)] "m" [[2, 3]] (1/2)).2 =
      [("m", trivialForest)]) :=
  ⟨rfl, c1_get_or_train_cache_wins [("m", trivialForest)] "m" trivialForest
    rfl [[1]] [[2, 3]] 0 (1/2)⟩

/-- C5: a detection request with an empty dataset is rejected with the
invalid-input error, with the store returned unchanged — no lookup, no
training, no write. -/
theorem c5_empty_detection_rejected (st : Store) (id : String) (c : ℚ) :
    detectAnomalies st id [] c = (.error "Input data cannot be empty.", st) := by
  simp [detectAnomalies]

/-- C8: a non-empty but non-rectangular dataset is rejected with the
invalid-input error by both the detection and the training endpoint, with
the store returned unchanged in both cases. -/
theorem c8_nonrectangular_rejected (st : Store) (id : String) (d : Dataset)
    (c : ℚ) (hne : d ≠ []) (hrect : isRect d = false) :
    detectAnomalies st id d c =
      (.error "Input data must be a list of lists (2D array).", st) ∧
    trainModelEndpoint st id d c =
      (.error "Training data must be a list of lists (2D array).", st) := by
  constructor <;>
    simp [detectAnomalies, trainModelEndpoint, ndim, hrect, hne]

theorem c8_witness :
    ([[1], [2, 3]] : Dataset) ≠ [] ∧ isRect [[1], [2, 3]] = false ∧
    (detectAnomalies [] "m" [[1], [2, 3]] 0 =
      (.error "Input data must be a list of lists (2D array).", []) ∧
    trainModelEndpoint [] "m" [[1], [2, 3]] 0 =
      (.error "Training data must be a list of lists (2D array).", [])) :=
  ⟨by simp, by rfl,
   c8_nonrectangular_rejected [] "m" [[1], [2, 3]] 0 (by simp) rfl⟩

/-- C9: the status query is read-only — it reports whether a record exists
for the identifier and returns the store unchanged, for every store and
identifier. -/
theorem c9_status_query_read_only (st : Store) (id : String) :
    (getModelStatus st id).2 = st ∧
    (getModelStatus st id).1.is_trained = (lookupModel st id).isSome :=
  ⟨rfl, rfl⟩

/-- C10: a training request (non-empty, rectangular data) for an
identifier that already has a stored record performs no training and no
write — the store comes back unchanged — ignores the supplied dataset and
contamination, and still reports success with the message
`"Model trained and saved."`. -/
theorem c10_train_existing_record_noop (st : Store) (id : String)
    (f : Forest) (h : lookupModel st id = some f) (d : Dataset) (c : ℚ)
    (hne : d ≠ []) (hrect : isRect d = true) :
    trainModelEndpoint st id d c =
      (.ok ⟨id, "Success", "Model trained and saved."⟩, st) := by
  simp [trainModelEndpoint, ndim, hrect, getOrTrain, h, hne]

theorem c10_witness :
    lookupModel [("m", trivialForest)] "m" = some trivialForest ∧
    ([[1], [2]] : Dataset) ≠ [] ∧ isRect [[1], [2]] = true ∧
    trainModelEndpoint [("m", trivialForest)] "m" [[1], [2]] (1/4) =
      (.ok ⟨"m", "Success", "Model trained and saved."⟩,
        [("m", trivialForest)]) :=
  ⟨rfl, by simp, rfl,
   c10_train_existing_record_noop [("m", trivialForest)] "m" trivialForest
     rfl [[1], [2]] (1/4) (by simp) rfl⟩

/-! ## Claims about the forest engine -/

lemma depthLimit_spec (ψ : ℕ) :
    ψ ≤ 2 ^ depthLimit ψ ∧ ∀ j < depthLimit ψ, ¬ ψ ≤ 2 ^ j := by
  obtain ⟨k, hk⟩ : ∃ k,
      (List.range (ψ + 1)).find? (fun k => ψ ≤ 2 ^ k) = some k := by
    have h1 : ψ ∈ List.range (ψ + 1) := List.mem_range.mpr (Nat.lt_succ_self ψ)
    have h2 : ((List.range (ψ + 1)).find? (fun k => ψ ≤ 2 ^ k)).isSome :=
      List.find?_isSome.mpr ⟨ψ, h1, by simp [Nat.le_of_lt (Nat.lt_two_pow ψ)]⟩
    exact Option.isSome_iff_exists.mp h2
  rw [depthLimit, hk, Option.getD_some]
  obtain ⟨hpk, as, bs, heq, hprev⟩ := List.find?_eq_some.mp hk
  have hlen : as.length < ψ + 1 := by
    have := congrArg List.length heq
    simp [List.length_append] at this
    omega
  have hkval : k = as.length := by
    have h1 : (List.range (ψ + 1))[as.length]? = some k := by
      rw [heq, List.getElem?_append_right (le_refl as.length)]
      simp
    rw [List.getElem?_range hlen] at h1
    exact (Option.some.injEq _ _ ▸ h1).symm
  constructor
  · simpa using hpk
  · intro j hj
    have hjlen : j < as.length := hkval ▸ hj
    have hjr : (List.range (ψ + 1))[j]? = some j :=
      List.getElem?_range (by omega)
    have hja : as[j]? = some j := by
      rw [heq, List.getElem?_append_left hjlen] at hjr
      exact hjr
    have hjmem : j ∈ as := List.getElem?_mem hja
    have := hprev j hjmem
    simpa using this

/-- The fuel-free depth limit coincides with `⌈log₂ ψ⌉`. -/
lemma depthLimit_eq_clog (ψ : ℕ) : depthLimit ψ = Nat.clog 2 ψ := by
  obtain ⟨h1, h2⟩ := depthLimit_spec ψ
  refine le_antisymm ?_ ((Nat.le_pow_iff_clog_le (by norm_num)).mp h1)
  by_contra h
  push_neg at h
  exact h2 _ h (Nat.le_pow_clog (by norm_num) ψ)

lemma cFactor_nonneg (n : ℕ) : 0 ≤ cFactor n := by
  rw [cFactor]
  split
  · exact le_refl 0
  · rename_i hn
    push_neg at hn
    rcases eq_or_lt_of_le hn with h2 | h3
    · rw [← h2]
      norm_num
    · have hn3 : (3 : ℕ) ≤ n := h3
      have h2n : (2 : ℝ) ≤ (n : ℝ) - 1 := by
        have : (3 : ℝ) ≤ (n : ℝ) := by exact_mod_cast hn3
        linarith
      have hlog : Real.log 2 ≤ Real.log ((n : ℝ) - 1) :=
        (Real.log_le_log_iff (by norm_num) (by linarith)).mpr h2n
      have hlog2 : (0.6931471803 : ℝ) < Real.log 2 := Real.log_two_gt_d9
      have hnpos : (0 : ℝ) < n := by positivity
      have hfrac : 2 * ((n : ℝ) - 1) / n ≤ 2 := by
        rw [div_le_iff₀ hnpos]
        linarith
      linarith

lemma pathLength_nonneg (t : ITree) (s : Sample) : 0 ≤ pathLength t s :=
  add_nonneg (Nat.cast_nonneg _) (cFactor_nonneg _)

lemma avgPathLength_nonneg (trees : List ITree) (s : Sample) :
    0 ≤ avgPathLength trees s :=
  div_nonneg
    (List.sum_nonneg fun x hx => by
      rcases List.mem_map.mp hx with ⟨t, _, rfl⟩
      exact pathLength_nonneg t s)
    (Nat.cast_nonneg _)

lemma rawScore_mem_Ioc (trees : List ITree) (ψ : ℕ) (s : Sample) :
    rawScore trees ψ s ∈ Set.Ioc (0 : ℝ) 1 := by
  constructor
  · exact Real.rpow_pos_of_pos (by norm_num) _
  · refine Real.rpow_le_one_of_one_le_of_nonpos (by norm_num) ?_
    rw [neg_div]
    exact neg_nonpos_of_nonneg
      (div_nonneg (avgPathLength_nonneg trees s) (cFactor_nonneg ψ))

/-- C4: for every non-empty rectangular dataset, the raw score of every
training sample under the forest the lifecycle manager builds lies in the
half-open interval `(0,1]`. -/
theorem c4_raw_score_range (d : Dataset) (c : ℚ) (hne : d ≠ [])
    (hrect : isRect d = true) (s : Sample) (hs : s ∈ d) :
    rawScore (trainModelSync d c).trees (trainModelSync d c).subsampleSize s
      ∈ Set.Ioc (0 : ℝ) 1 :=
  rawScore_mem_Ioc _ _ _

theorem c4_witness :
    ([[1], [2]] : Dataset) ≠ [] ∧ isRect [[1], [2]] = true ∧
      [(1 : ℚ)] ∈ ([[1], [2]] : Dataset) ∧
    rawScore (trainModelSync [[1], [2]] 0).trees
      (trainModelSync [[1], [2]] 0).subsampleSize [(1 : ℚ)]
      ∈ Set.Ioc (0 : ℝ) 1 :=
  ⟨by simp, rfl, by simp,
   c4_raw_score_range [[1], [2]] 0 (by simp) rfl [(1 : ℚ)] (by simp)⟩

/-- C6: `Build` is deterministic — two invocations with identical dataset,
tree count, subsample size and seed (the pseudo-random source is a pure
function of the seed) yield the same forest structure and identical
`Predict` outputs on every sample. -/
theorem c6_build_deterministic (d : Dataset) (n ψ seed : ℕ) (c : ℚ)
    (f₁ f₂ : Forest) (h₁ : f₁ = buildForest d n ψ seed c)
    (h₂ : f₂ = buildForest d n ψ seed c) :
    f₁ = f₂ ∧ ∀ s : Sample, predict f₁ s = predict f₂ s := by
  subst h₁; subst h₂
  exact ⟨rfl, fun _ => rfl⟩

theorem c6_witness :
    buildForest [[1], [2]] 2 2 7 0 = buildForest [[1], [2]] 2 2 7 0 ∧
      ∀ s : Sample,
        predict (buildForest [[1], [2]] 2 2 7 0) s =
          predict (buildForest [[1], [2]] 2 2 7 0) s :=
  c6_build_deterministic [[1], [2]] 2 2 7 0 _ _ rfl rfl

/-! ## The worked example

Training set `[[1,1],[1.1,1.1],[1.2,1.2],[10,10]]` with contamination
`0.25`; probes `[[1.15,1.15],[10.5,10.5],[1,1]]`.  The forest is the one
the lifecycle manager builds (100 trees, subsample size `min 256 4 = 4`,
seed 42).  The per-sample walk statistics below are computed by the kernel
from the embedded builder; every leaf reached holds at most 2 training
points, so all path-length totals are rational and the score comparisons
reduce to numerals. -/

def exampleTrain : Dataset := [[1, 1], [11/10, 11/10], [6/5, 6/5], [10, 10]]

def exampleProbes : List Sample := [[23/20, 23/20], [21/2, 21/2], [1, 1]]

def exampleTrees : List ITree :=
  (buildTrees exampleTrain 100 4 (rngOfSeed 42)).1

lemma buildTrees_fst_length (d : Dataset) (n ψ : ℕ) (g : Rng) :
    ((buildTrees d n ψ g).1).length = n := by
  induction n generalizing g with
  | zero => rfl
  | succ k ih => simp [buildTrees, ih]

lemma exampleTrees_length : exampleTrees.length = 100 :=
  buildTrees_fst_length exampleTrain 100 4 (rngOfSeed 42)

lemma cFactor_of_le_one {n : ℕ} (h : n ≤ 1) : cFactor n = 0 := by
  rw [cFactor, if_pos h]

lemma cFactor_two_eq : cFactor 2 = 0.1544313298 := by
  rw [cFactor, if_neg (by norm_num)]
  norm_num [Real.log_one]

lemma cFactor_four_pos : 0 < cFactor 4 := by
  rw [cFactor, if_neg (by norm_num)]
  have h23 : Real.log 2 ≤ Real.log 3 :=
    (Real.log_le_log_iff (by norm_num) (by norm_num)).mpr (by norm_num)
  have h2 := Real.log_two_gt_d9
  norm_num
  linarith

/-- The ensemble path-length sum decomposes through the walk statistics
when no walk ends in a leaf holding more than 4 points. -/
lemma pathSum_eq_stats (trees : List ITree) (s : Sample)
    (hbad : (statsOf trees s).2.2.2.2 = 0) :
    (trees.map (fun t => pathLength t s)).sum =
      ((statsOf trees s).1 : ℝ) +
        ((statsOf trees s).2.1 : ℝ) * cFactor 2 +
        ((statsOf trees s).2.2.1 : ℝ) * cFactor 3 +
        ((statsOf trees s).2.2.2.1 : ℝ) * cFactor 4 := by
  induction trees with
  | nil => simp [statsOf]
  | cons t ts ih =>
    have hk4 : (pathDepthCount t s).2 ≤ 4 := by
      by_cases hk : (pathDepthCount t s).2 ≤ 4
      · exact hk
      · exfalso
        simp [statsOf, hk] at hbad
    have hb : (statsOf ts s).2.2.2.2 = 0 := by
      simp [statsOf, hk4] at hbad
      exact hbad
    simp only [List.map_cons, List.sum_cons, statsOf]
    rw [ih hb, pathLength]
    generalize hw : pathDepthCount t s = w at hk4 ⊢
    obtain ⟨dp, k⟩ := w
    simp only at hk4 ⊢
    interval_cases k <;>
      simp [cFactor_of_le_one] <;> push_cast <;> ring

set_option maxRecDepth 1000000 in
lemma stats_t0 : statsOf exampleTrees [1, 1] = (199, 48, 0, 0, 0) := by
  decide!

set_option maxRecDepth 1000000 in
lemma stats_t1 : statsOf exampleTrees [11/10, 11/10] = (200, 100, 0, 0, 0) := by
  decide!

set_option maxRecDepth 1000000 in
lemma stats_t2 : statsOf exampleTrees [6/5, 6/5] = (200, 52, 0, 0, 0) := by
  decide!

set_option maxRecDepth 1000000 in
lemma stats_t3 : statsOf exampleTrees [10, 10] = (101, 0, 0, 0, 0) := by
  decide!

set_option maxRecDepth 1000000 in
lemma stats_p1 : statsOf exampleTrees [23/20, 23/20] = (200, 73, 0, 0, 0) := by
  decide!

set_option maxRecDepth 1000000 in
lemma stats_p2 : statsOf exampleTrees [21/2, 21/2] = (101, 0, 0, 0, 0) := by
  decide!

/-- Mean path length through the example ensemble, from walk statistics. -/
lemma avg_of_stats (s : Sample) (D a2 : ℕ)
    (h : statsOf exampleTrees s = (D, a2, 0, 0, 0)) :
    avgPathLength exampleTrees s = ((D : ℝ) + (a2 : ℝ) * cFactor 2) / 100 := by
  rw [avgPathLength, pathSum_eq_stats exampleTrees s (by rw [h]), h,
    exampleTrees_length]
  norm_num

lemma rawScore_lt_iff (trees : List ITree) (ψ : ℕ) (x y : Sample)
    (hψ : 0 < cFactor ψ) :
    rawScore trees ψ x < rawScore trees ψ y ↔
      avgPathLength trees y < avgPathLength trees x := by
  rw [rawScore, rawScore, Real.rpow_lt_rpow_left_iff (by norm_num : (1:ℝ) < 2),
    neg_div, neg_div, neg_lt_neg_iff, div_lt_div_iff_of_pos_right hψ]

lemma rawScore_congr (trees : List ITree) (ψ : ℕ) (x y : Sample)
    (h : avgPathLength trees x = avgPathLength trees y) :
    rawScore trees ψ x = rawScore trees ψ y := by
  rw [rawScore, rawScore, h]

lemma score_t0_lt_t3 :
    rawScore exampleTrees 4 [1, 1] < rawScore exampleTrees 4 [10, 10] := by
  rw [rawScore_lt_iff _ 4 _ _ cFactor_four_pos,
    avg_of_stats _ 199 48 stats_t0, avg_of_stats _ 101 0 stats_t3,
    cFactor_two_eq]
  norm_num

lemma score_t1_lt_t3 :
    rawScore exampleTrees 4 [11/10, 11/10] <
      rawScore exampleTrees 4 [10, 10] := by
  rw [rawScore_lt_iff _ 4 _ _ cFactor_four_pos,
    avg_of_stats _ 200 100 stats_t1, avg_of_stats _ 101 0 stats_t3,
    cFactor_two_eq]
  norm_num

lemma score_t2_lt_t3 :
    rawScore exampleTrees 4 [6/5, 6/5] < rawScore exampleTrees 4 [10, 10] := by
  rw [rawScore_lt_iff _ 4 _ _ cFactor_four_pos,
    avg_of_stats _ 200 52 stats_t2, avg_of_stats _ 101 0 stats_t3,
    cFactor_two_eq]
  norm_num

lemma score_t1_lt_t2 :
    rawScore exampleTrees 4 [11/10, 11/10] <
      rawScore exampleTrees 4 [6/5, 6/5] := by
  rw [rawScore_lt_iff _ 4 _ _ cFactor_four_pos,
    avg_of_stats _ 200 100 stats_t1, avg_of_stats _ 200 52 stats_t2,
    cFactor_two_eq]
  norm_num

lemma score_t2_lt_t0 :
    rawScore exampleTrees 4 [6/5, 6/5] < rawScore exampleTrees 4 [1, 1] := by
  rw [rawScore_lt_iff _ 4 _ _ cFactor_four_pos,
    avg_of_stats _ 200 52 stats_t2, avg_of_stats _ 199 48 stats_t0,
    cFactor_two_eq]
  norm_num

lemma score_p1_lt_t0 :
    rawScore exampleTrees 4 [23/20, 23/20] <
      rawScore exampleTrees 4 [1, 1] := by
  rw [rawScore_lt_iff _ 4 _ _ cFactor_four_pos,
    avg_of_stats _ 200 73 stats_p1, avg_of_stats _ 199 48 stats_t0,
    cFactor_two_eq]
  norm_num

lemma score_p2_eq_t3 :
    rawScore exampleTrees 4 [21/2, 21/2] = rawScore exampleTrees 4 [10, 10] :=
  rawScore_congr _ 4 _ _ (by
    rw [avg_of_stats _ 101 0 stats_p2, avg_of_stats _ 101 0 stats_t3])

/-- The derived threshold of the worked example is the raw score of the
training point `[1,1]` — the boundary of the most-anomalous quarter. -/
lemma threshold_eval :
    thresholdOf exampleTrees 4 exampleTrain (1/4) =
      rawScore exampleTrees 4 [1, 1] := by
  have g23 : ¬ (rawScore exampleTrees 4 [10, 10] ≤
      rawScore exampleTrees 4 [6/5, 6/5]) := not_le.mpr score_t2_lt_t3
  have g13 : ¬ (rawScore exampleTrees 4 [10, 10] ≤
      rawScore exampleTrees 4 [11/10, 11/10]) := not_le.mpr score_t1_lt_t3
  have g12 : ¬ (rawScore exampleTrees 4 [6/5, 6/5] ≤
      rawScore exampleTrees 4 [11/10, 11/10]) := not_le.mpr score_t1_lt_t2
  have g03 : ¬ (rawScore exampleTrees 4 [10, 10] ≤
      rawScore exampleTrees 4 [1, 1]) := not_le.mpr score_t0_lt_t3
  have g02 : rawScore exampleTrees 4 [6/5, 6/5] ≤
      rawScore exampleTrees 4 [1, 1] := le_of_lt score_t2_lt_t0
  rw [thresholdOf]
  have hmap : exampleTrain.map (rawScore exampleTrees 4) =
      [rawScore exampleTrees 4 [1, 1], rawScore exampleTrees 4 [11/10, 11/10],
       rawScore exampleTrees 4 [6/5, 6/5], rawScore exampleTrees 4 [10, 10]] :=
    rfl
  have hlen : (exampleTrain.length : ℚ) = 4 := rfl
  rw [hmap, hlen]
  norm_num
  simp only [List.insertionSort, List.orderedInsert, ge_iff_le, g23, g13, g12,
    g03, g02, if_false, if_true]
  rfl

lemma buildForest_trees (d : Dataset) (n ψ seed : ℕ) (c : ℚ) :
    (buildForest d n ψ seed c).trees = (buildTrees d n ψ (rngOfSeed seed)).1 :=
  rfl

lemma buildForest_psi (d : Dataset) (n ψ seed : ℕ) (c : ℚ) :
    (buildForest d n ψ seed c).subsampleSize = ψ :=
  rfl

lemma buildForest_threshold (d : Dataset) (n ψ seed : ℕ) (c : ℚ) :
    (buildForest d n ψ seed c).threshold =
      thresholdOf (buildTrees d n ψ (rngOfSeed seed)).1 ψ d c :=
  rfl

lemma exampleTrees_def :
    exampleTrees = (buildTrees exampleTrain 100 4 (rngOfSeed 42)).1 :=
  rfl

lemma trainModelSync_example_eq :
    trainModelSync exampleTrain (1/4) = buildForest exampleTrain 100 4 42 (1/4) := by
  rw [trainModelSync]
  congr 1

lemma exampleModel_trees :
    (trainModelSync exampleTrain (1/4)).trees = exampleTrees := by
  rw [trainModelSync_example_eq, buildForest_trees, ← exampleTrees_def]

lemma exampleModel_psi :
    (trainModelSync exampleTrain (1/4)).subsampleSize = 4 := by
  rw [trainModelSync_example_eq, buildForest_psi]

lemma exampleModel_threshold :
    (trainModelSync exampleTrain (1/4)).threshold =
      rawScore exampleTrees 4 [1, 1] := by
  rw [trainModelSync_example_eq, buildForest_threshold, ← exampleTrees_def,
    threshold_eval]

lemma predict_probe1 :
    predict (trainModelSync exampleTrain (1/4)) [23/20, 23/20] = 1 := by
  rw [predict, exampleModel_trees, exampleModel_psi, exampleModel_threshold,
    if_neg (not_lt.mpr (le_of_lt score_p1_lt_t0))]

lemma predict_probe2 :
    predict (trainModelSync exampleTrain (1/4)) [21/2, 21/2] = -1 := by
  rw [predict, exampleModel_trees, exampleModel_psi, exampleModel_threshold,
    if_pos (lt_of_lt_of_eq score_t0_lt_t3 score_p2_eq_t3.symm)]

lemma predict_probe3 :
    predict (trainModelSync exampleTrain (1/4)) [1, 1] = 1 := by
  rw [predict, exampleModel_trees, exampleModel_psi, exampleModel_threshold,
    if_neg (lt_irrefl _)]

/-- C7: the worked example — training on
`[[1,1],[1.1,1.1],[1.2,1.2],[10,10]]` with contamination `0.25` through
the training endpoint and then detecting on
`[[1.15,1.15],[10.5,10.5],[1,1]]` yields exactly the label sequence
`[1, -1, 1]` (normal, anomaly, normal), aligned by index. -/
theorem c7_worked_example :
    exampleProbes.map (predict (trainModelSync exampleTrain (1/4))) =
      [1, -1, 1] ∧
    ∃ out : AnomalyDetectionOutput,
      (detectAnomalies (trainModelEndpoint [] "m" exampleTrain (1/4)).2 "m"
        exampleProbes (1/100)).1 = .ok out ∧ out.anomalies = [1, -1, 1] := by
  have hpreds : exampleProbes.map (predict (trainModelSync exampleTrain (1/4))) =
      [1, -1, 1] := by
    show [predict (trainModelSync exampleTrain (1/4)) [23/20, 23/20],
          predict (trainModelSync exampleTrain (1/4)) [21/2, 21/2],
          predict (trainModelSync exampleTrain (1/4)) [1, 1]] = [1, -1, 1]
    rw [predict_probe1, predict_probe2, predict_probe3]
  refine ⟨hpreds, ?_⟩
  have hst : (trainModelEndpoint [] "m" exampleTrain (1/4)).2 =
      [("m", trainModelSync exampleTrain (1/4))] := rfl
  rw [hst]
  have hdet : (detectAnomalies [("m", trainModelSync exampleTrain (1/4))] "m"
      exampleProbes (1/100)).1 =
      .ok ⟨"m", exampleProbes.map (predict (trainModelSync exampleTrain (1/4))),
        vScore (exampleProbes.map
          (rawScore (trainModelSync exampleTrain (1/4)).trees
            (trainModelSync exampleTrain (1/4)).subsampleSize))⟩ := rfl
  rw [hdet]
  exact ⟨_, rfl, hpreds⟩

end VIE
